import Mathlib

/-!
Shallow embedding of the contact-manager program (`7.py`): field validators
(`Phone`, `Birthday`), `Record`, `AddressBook`, and the command layer of
`main`.  Calendar dates are day/month/year triples in the proleptic
Gregorian calendar; a Python `datetime` value is such a date together with
its time of day in microseconds, because the comparison and the
`timedelta.days` flooring in `days_to_birthday` observe the time of day.
Values parsed by `strptime` sit at midnight, and `datetime.today()`
becomes an explicit parameter.  Raising `ValueError` is embedded as
`Except String` carrying the source's message.
-/

namespace Hw7

/-- Gregorian leap-year test, as used by Python's `datetime`. -/
def isLeap (y : Nat) : Bool :=
  (y % 4 == 0 && y % 100 != 0) || y % 400 == 0

/-- Number of days in a month of a given year (months are 1-based). -/
def daysInMonth (y m : Nat) : Nat :=
  match m with
  | 2 => if isLeap y then 29 else 28
  | 4 | 6 | 9 | 11 => 30
  | _ => 31

/-- A calendar date: the data `datetime.strptime` produces that the program
ever looks at. -/
structure Date where
  year : Nat
  month : Nat
  day : Nat
deriving DecidableEq, Repr

/-- The range check `datetime` enforces on construction (`MINYEAR = 1`,
`MAXYEAR = 9999`). -/
def validDate (dt : Date) : Prop :=
  1 ≤ dt.year ∧ dt.year ≤ 9999 ∧ 1 ≤ dt.month ∧ dt.month ≤ 12 ∧
    1 ≤ dt.day ∧ dt.day ≤ daysInMonth dt.year dt.month

instance (dt : Date) : Decidable (validDate dt) := by
  unfold validDate; infer_instance

/-- Days strictly before January 1 of year `y` (proleptic Gregorian). -/
def daysBeforeYear (y : Nat) : Nat :=
  365 * (y - 1) + ((y - 1) / 4 + (y - 1) / 400) - (y - 1) / 100

/-- Days in year `y` strictly before month `m`. -/
def daysBeforeMonth (y : Nat) : Nat → Nat
  | 0 => 0
  | 1 => 0
  | m + 1 => daysBeforeMonth y m + daysInMonth y m

/-- Embedding of `date.toordinal()`: 01.01.0001 is day 1. -/
def toOrdinal (dt : Date) : Nat :=
  daysBeforeYear dt.year + daysBeforeMonth dt.year dt.month + dt.day

/-- Embedding of a full `datetime` value: the calendar date plus the time
of day in microseconds (`datetime.today()` carries the wall clock;
`strptime` results have time 00:00:00). -/
structure DateTime where
  date : Date
  usec : Nat
deriving DecidableEq, Repr

/-- Microseconds in a day. -/
def usecPerDay : Nat := 86400000000

/-- The comparison `next_birthday < today` on `datetime` values:
lexicographic on the date and the time of day. -/
def dtLt (a b : DateTime) : Bool :=
  toOrdinal a.date < toOrdinal b.date ||
    (toOrdinal a.date == toOrdinal b.date && a.usec < b.usec)

/-- Embedding of `(a - b).days` on `datetime` values: `timedelta.days` is
the total difference floored to whole days (Python floors toward minus
infinity). -/
def timedeltaDays (a b : DateTime) : Int :=
  Int.fdiv
    (((toOrdinal a.date : Int) - (toOrdinal b.date : Int)) * (usecPerDay : Int) +
      ((a.usec : Int) - (b.usec : Int)))
    (usecPerDay : Int)

/-- Embedding of `datetime.replace(year=y)`: keeps month and day, fails with
`ValueError` (modelled as `none`) when the day does not exist in the target
month — the Feb-29 case. -/
def replaceYear (dt : Date) (y : Nat) : Option Date :=
  if dt.day ≤ daysInMonth y dt.month then some { dt with year := y } else none

/-! ### Rendering and parsing of `DD.MM.YYYY` -/

/-- Two-digit zero-padded rendering, `strftime` codes `%d` and `%m`. -/
def pad2 (n : Nat) : List Char :=
  [Nat.digitChar (n / 10), Nat.digitChar (n % 10)]

/-- Four-digit zero-padded rendering of the year, `strftime` code `%Y`. -/
def pad4 (n : Nat) : List Char :=
  [Nat.digitChar (n / 1000), Nat.digitChar (n / 100 % 10),
   Nat.digitChar (n / 10 % 10), Nat.digitChar (n % 10)]

/-- Embedding of `strftime("%d.%m.%Y")`. -/
def renderDate (dt : Date) : String :=
  ⟨pad2 dt.day ++ '.' :: (pad2 dt.month ++ '.' :: pad4 dt.year)⟩

/-- Split a character list at every `'.'` (the literal separators of the
format string); like Python's `str.split('.')`, never returns `[]`. -/
def splitDots : List Char → List (List Char)
  | [] => [[]]
  | c :: rest =>
    if c = '.' then [] :: splitDots rest
    else
      match splitDots rest with
      | [] => [[c]]
      | h :: t => (c :: h) :: t

/-- Numeric value of a digit string. -/
def digitsToNat (l : List Char) : Nat :=
  l.foldl (fun acc c => 10 * acc + (c.toNat - 48)) 0

/-- The `%d` field regex of `_strptime`, `(3[01]|[12]\d|0[1-9]|[1-9])`:
one or two digits with value 1..31. -/
def parseDayField (l : List Char) : Option Nat :=
  if (l.length = 1 ∨ l.length = 2) ∧ l.all Char.isDigit ∧
      1 ≤ digitsToNat l ∧ digitsToNat l ≤ 31 then
    some (digitsToNat l)
  else none

/-- The `%m` field regex, `(1[0-2]|0[1-9]|[1-9])`: one or two digits with
value 1..12. -/
def parseMonthField (l : List Char) : Option Nat :=
  if (l.length = 1 ∨ l.length = 2) ∧ l.all Char.isDigit ∧
      1 ≤ digitsToNat l ∧ digitsToNat l ≤ 12 then
    some (digitsToNat l)
  else none

/-- The `%Y` field regex, exactly four digits. -/
def parseYearField (l : List Char) : Option Nat :=
  if l.length = 4 ∧ l.all Char.isDigit then some (digitsToNat l) else none

/-- Embedding of `datetime.strptime(s, "%d.%m.%Y")`: the three dot-separated fields must
match their regexes and the result must be a real calendar date with
year ≥ 1. -/
def strptimeDMY (s : String) : Option Date :=
  match splitDots s.data with
  | [df, mf, yf] =>
    match parseDayField df, parseMonthField mf, parseYearField yf with
    | some d, some m, some y =>
      if 1 ≤ y ∧ d ≤ daysInMonth y m then some ⟨y, m, d⟩ else none
    | _, _, _ => none
  | _ => none

/-! ### Phone -/

/-- Embedding of `re.fullmatch(r'\d{10}', value)`: exactly ten digit characters. -/
def phoneFullmatch (s : String) : Bool :=
  s.data.length == 10 && s.data.all Char.isDigit

/-- The `Phone` field: a validated raw string. -/
structure Phone where
  value : String
deriving DecidableEq, Repr

/-- Embedding of `Phone.set_phone`: returns the accepted value or raises. -/
def set_phone (v : String) : Except String String :=
  if phoneFullmatch v then .ok v
  else .error "Phone number must be exactly 10 digits."

/-- Embedding of `Phone.__init__`. -/
def Phone.init (v : String) : Except String Phone :=
  (set_phone v).map Phone.mk

/-- Embedding of `Phone.__str__`. -/
def Phone.render (p : Phone) : String := p.value

/-! ### Birthday -/

/-- The `Birthday` field: the parsed date. -/
structure Birthday where
  value : Date
deriving DecidableEq, Repr

/-- Embedding of `Birthday.__init__`. -/
def Birthday.init (v : String) : Except String Birthday :=
  match strptimeDMY v with
  | some dt => .ok ⟨dt⟩
  | none => .error "Invalid date format. Use DD.MM.YYYY"

/-- Embedding of `Birthday.__str__`. -/
def Birthday.render (b : Birthday) : String := renderDate b.value

/-! ### Record -/

/-- One contact: name, ordered phones, optional birthday. -/
structure Record where
  name : String
  phones : List Phone
  birthday : Option Birthday
deriving DecidableEq, Repr

/-- Embedding of `Record.__init__(name)`. -/
def Record.init (name : String) : Record := ⟨name, [], none⟩

/-- Embedding of `Record.add_phone`: validates and appends; raises on a bad format,
leaving the record unchanged. -/
def Record.add_phone (r : Record) (phone : String) : Except String Record :=
  match Phone.init phone with
  | .ok p => .ok { r with phones := r.phones ++ [p] }
  | .error e => .error e

/-- Helper for `Record.remove_phone`: drops the first phone whose value is
`phone`, raising when none matches. -/
def removeFirstPhone : List Phone → String → Except String (List Phone)
  | [], _ => .error "Phone number not found."
  | p :: rest, phone =>
    if p.value = phone then .ok rest
    else
      match removeFirstPhone rest phone with
      | .ok l => .ok (p :: l)
      | .error e => .error e

/-- Embedding of `Record.remove_phone`. -/
def Record.remove_phone (r : Record) (phone : String) : Except String Record :=
  match removeFirstPhone r.phones phone with
  | .ok l => .ok { r with phones := l }
  | .error e => .error e

/-- Helper for `Record.edit_phone`: `set_phone` on the first phone whose
value is `old`; the `set_phone` failure propagates with the list untouched,
and a missing match raises `"Old phone number not found."`. -/
def editFirstPhone : List Phone → String → String → Except String (List Phone)
  | [], _, _ => .error "Old phone number not found."
  | p :: rest, old, new =>
    if p.value = old then
      match set_phone new with
      | .ok v => .ok (⟨v⟩ :: rest)
      | .error e => .error e
    else
      match editFirstPhone rest old new with
      | .ok l => .ok (p :: l)
      | .error e => .error e

/-- Embedding of `Record.edit_phone`. -/
def Record.edit_phone (r : Record) (old new : String) : Except String Record :=
  match editFirstPhone r.phones old new with
  | .ok l => .ok { r with phones := l }
  | .error e => .error e

/-- Embedding of `Record.add_birthday`: parses and overwrites the birthday; raises on a
bad format with the record unchanged. -/
def Record.add_birthday (r : Record) (raw : String) : Except String Record :=
  match Birthday.init raw with
  | .ok b => .ok { r with birthday := some b }
  | .error e => .error e

/-- Embedding of `Record.days_to_birthday` with `datetime.today()` made an
explicit `today` parameter: `None` when no birthday is set; otherwise
compose the birthday's month/day with this year at midnight (a
`ValueError` from `replace` propagates), roll one year forward when that
midnight instant is strictly before `today` — time of day included — and
return `(next_birthday - today).days`, the difference floored to whole
days. -/
def Record.days_to_birthday (r : Record) (today : DateTime) :
    Except String (Option Int) :=
  match r.birthday with
  | none => .ok none
  | some b =>
    match replaceYear b.value today.date.year with
    | none => .error "day is out of range for month"
    | some nb =>
      if dtLt ⟨nb, 0⟩ today then
        match replaceYear b.value (today.date.year + 1) with
        | none => .error "day is out of range for month"
        | some nb2 => .ok (some (timedeltaDays ⟨nb2, 0⟩ today))
      else .ok (some (timedeltaDays ⟨nb, 0⟩ today))

/-- Embedding of `str.join` as Python computes it. -/
def pyJoin (sep : String) : List String → String
  | [] => ""
  | h :: t => t.foldl (fun acc x => acc ++ sep ++ x) h

/-- Embedding of `Record.__str__`. -/
def Record.render (r : Record) : String :=
  "Contact name: " ++ r.name ++ ", phones: " ++
    pyJoin "; " (r.phones.map Phone.render) ++
    (match r.birthday with
     | some b => ", Birthday: " ++ b.render
     | none => "")

/-! ### AddressBook

The Python `dict` underlying `UserDict` is embedded as an insertion-ordered
association list whose keys are unique (a `dict` cannot hold a key twice;
`dictSet` preserves this). -/

/-- The address book: `self.data`. -/
structure AddressBook where
  entries : List (String × Record)
deriving DecidableEq, Repr

/-- The empty book `AddressBook()`. -/
def AddressBook.empty : AddressBook := ⟨[]⟩

/-- First value stored under a key, `dict.get(name, None)` — also
`Record.find` in the source. -/
def findEntry : List (String × Record) → String → Option Record
  | [], _ => none
  | kv :: rest, n => if kv.1 = n then some kv.2 else findEntry rest n

/-- Embedding of `dict[k] = v`: overwrite in place when the key exists (keeping its
position), append otherwise. -/
def dictSet (l : List (String × Record)) (k : String) (v : Record) :
    List (String × Record) :=
  if (findEntry l k).isSome then
    l.map fun kv => if kv.1 = k then (kv.1, v) else kv
  else l ++ [(k, v)]

/-- Embedding of `del dict[k]`: remove the entry holding the key. -/
def removeKey : List (String × Record) → String → List (String × Record)
  | [], _ => []
  | kv :: rest, n => if kv.1 = n then rest else kv :: removeKey rest n

/-- Embedding of `AddressBook.add_record`: stores the record under its own name. -/
def AddressBook.add_record (b : AddressBook) (r : Record) : AddressBook :=
  ⟨dictSet b.entries r.name r⟩

/-- Embedding of `AddressBook.find`. -/
def AddressBook.find (b : AddressBook) (name : String) : Option Record :=
  findEntry b.entries name

/-- Embedding of `AddressBook.delete`: removes the entry, raising when the name is
absent (the book is then unchanged). -/
def AddressBook.delete (b : AddressBook) (name : String) :
    Except String AddressBook :=
  if (findEntry b.entries name).isSome then .ok ⟨removeKey b.entries name⟩
  else .error "Record not found."

/-- The loop body of `AddressBook.get_upcoming_birthdays`: for each record
with a birthday, compute `days_to_birthday` (its exception propagates) and
collect `name`/rendered-birthday pairs when the day count is at most 7. -/
def collectUpcoming (today : DateTime) :
    List (String × Record) → Except String (List (String × String))
  | [] => .ok []
  | (n, r) :: rest =>
    match r.birthday with
    | none => collectUpcoming today rest
    | some bd =>
      match r.days_to_birthday today with
      | .error e => .error e
      | .ok none => collectUpcoming today rest
      | .ok (some d) =>
        if d ≤ 7 then
          match collectUpcoming today rest with
          | .error e => .error e
          | .ok l => .ok ((n, renderDate bd.value) :: l)
        else collectUpcoming today rest

/-- Embedding of `AddressBook.get_upcoming_birthdays` with `datetime.today()` made an
explicit parameter. -/
def AddressBook.get_upcoming_birthdays (b : AddressBook) (today : DateTime) :
    Except String (List (String × String)) :=
  collectUpcoming today b.entries

/-- Embedding of `AddressBook.__str__`. -/
def AddressBook.render (b : AddressBook) : String :=
  pyJoin "\n" (b.entries.map fun kv => kv.2.render)

/-! ### Command layer (`parse_input` and the body of `main`'s loop) -/

/-- Whitespace tokenizer of `str.split()` (no argument): splits on runs of
whitespace and never yields empty tokens, so the preceding `strip()` in
`parse_input` changes nothing.  `acc` holds the current token reversed. -/
def pySplitAux : List Char → List Char → List (List Char)
  | [], acc => if acc = [] then [] else [acc.reverse]
  | c :: rest, acc =>
    if c.isWhitespace then
      if acc = [] then pySplitAux rest []
      else acc.reverse :: pySplitAux rest []
    else pySplitAux rest (c :: acc)

/-- Embedding of `user_input.strip().split()`. -/
def pySplit (s : String) : List String :=
  (pySplitAux s.data []).map fun l => ⟨l⟩

/-- Embedding of `parse_input`: `parts[0], parts[1:]` — indexing an empty list raises
`IndexError`, embedded as `none`. -/
def parse_input (s : String) : Option (String × List String) :=
  match pySplit s with
  | [] => none
  | cmd :: args => some (cmd, args)

/-- What one iteration of `main`'s `while` loop does: continue with a
(possibly updated) book after printing, leave the loop, or let an uncaught
exception terminate the process. -/
inductive Outcome where
  | next (book : AddressBook) (out : List String)
  | halt (out : List String)
  | crash
deriving DecidableEq, Repr

/-- Replace the record stored under `name` (the effect of mutating the
object `book.data[name]` in place). -/
def updateAt (b : AddressBook) (name : String) (r : Record) : AddressBook :=
  ⟨b.entries.map fun kv => if kv.1 = name then (kv.1, r) else kv⟩

/-- The command dispatch of `main`, one branch per `elif`.  The `add`
branch has no handler around `add_phone`, so its `ValueError` crashes the
loop; `change` catches `ValueError` from `edit_phone` and prints the
not-found message; `add_birthday`, `show_birthday` and `birthdays` are
wrapped in `input_error`, which prints the exception's message. -/
def dispatch (today : DateTime) (b : AddressBook) (cmd : String)
    (args : List String) : Outcome :=
  if cmd = "close" ∨ cmd = "exit" then .halt ["Good bye!"]
  else if cmd = "hello" then .next b ["How can I help you?"]
  else if cmd = "add" then
    match args with
    | name :: phone :: _ =>
      match findEntry b.entries name with
      | some r =>
        match r.add_phone phone with
        | .ok r2 =>
          .next (updateAt b name r2)
            ["Added phone " ++ phone ++ " to existing contact " ++ name ++ "."]
        | .error _ => .crash
      | none =>
        match (Record.init name).add_phone phone with
        | .ok r2 =>
          .next (b.add_record r2)
            ["Created new contact " ++ name ++ " with phone " ++ phone ++ "."]
        | .error _ => .crash
    | _ => .next b ["Please provide both name and phone number."]
  else if cmd = "change" then
    match args with
    | name :: oldP :: newP :: _ =>
      match findEntry b.entries name with
      | some r =>
        match r.edit_phone oldP newP with
        | .ok r2 =>
          .next (updateAt b name r2)
            ["Changed phone " ++ oldP ++ " to " ++ newP ++ " for contact " ++
              name ++ "."]
        | .error _ =>
          .next b
            ["Phone number " ++ oldP ++ " not found for contact " ++ name ++ "."]
      | none => .next b ["No contact found with name " ++ name ++ "."]
    | _ => .next b ["Please provide name, old phone, and new phone."]
  else if cmd = "phone" then
    match args with
    | name :: _ =>
      match findEntry b.entries name with
      | some r =>
        .next b
          [name ++ "\x27s phone numbers: " ++
            pyJoin ", " (r.phones.map Phone.render) ++ "."]
      | none => .next b ["No contact found with name " ++ name ++ "."]
    | _ => .next b ["Please provide a name."]
  else if cmd = "all" then
    if b.entries = [] then .next b ["No contacts found."]
    else .next b [b.render]
  else if cmd = "add-birthday" then
    match args with
    | name :: raw :: _ =>
      match findEntry b.entries name with
      | some r =>
        match r.add_birthday raw with
        | .ok r2 =>
          .next (updateAt b name r2)
            ["Birthday " ++ raw ++ " added for " ++ name ++ "."]
        | .error e => .next b [e]
      | none => .next b ["No contact found with name " ++ name ++ "."]
    | _ => .next b ["Please provide both name and birthday."]
  else if cmd = "show-birthday" then
    match args with
    | name :: _ =>
      match findEntry b.entries name with
      | some r =>
        match r.birthday with
        | some bd =>
          .next b [name ++ "\x27s birthday is on " ++ bd.render ++ "."]
        | none => .next b ["No birthday found for " ++ name ++ "."]
      | none => .next b ["No birthday found for " ++ name ++ "."]
    | _ => .next b ["Please provide a name."]
  else if cmd = "birthdays" then
    match b.get_upcoming_birthdays today with
    | .error e => .next b [e]
    | .ok [] => .next b ["No upcoming birthdays in the next 7 days."]
    | .ok l =>
      .next b (l.map fun p => p.1 ++ " has a birthday on " ++ p.2 ++ ".")
  else .next b ["Invalid command."]

/-- One iteration of `main`'s loop on one input line: `parse_input`
followed by the dispatch; the `IndexError` of `parse_input` is uncaught
and crashes the loop. -/
def replStep (today : DateTime) (b : AddressBook) (input : String) : Outcome :=
  match parse_input input with
  | none => .crash
  | some (cmd, args) => dispatch today b cmd args

/-! ### Book-level operation sequences (for the key–name invariant) -/

/-- The mutations reachable on a book: `add_record`, `delete`, and the
record mutations the commands perform through `book.data[name]`. -/
inductive BookOp where
  | addRecord (r : Record)
  | delete (name : String)
  | addPhone (name phone : String)
  | editPhone (name oldP newP : String)
  | removePhone (name phone : String)
  | addBirthday (name raw : String)

/-- Store the result of a per-record mutation back under its key: on
success the stored object now holds the new state, a raised `ValueError`
leaves the book unchanged. -/
def mutateAt (b : AddressBook) (name : String) :
    Except String Record → AddressBook
  | .ok r2 => updateAt b name r2
  | .error _ => b

/-- Apply one operation; a raised `ValueError` leaves the book unchanged
(per-record mutations touch the stored record only on success). -/
def applyOp (b : AddressBook) : BookOp → AddressBook
  | .addRecord r => b.add_record r
  | .delete name =>
    match b.delete name with
    | .ok b2 => b2
    | .error _ => b
  | .addPhone name phone =>
    match findEntry b.entries name with
    | none => b
    | some r => mutateAt b name (r.add_phone phone)
  | .editPhone name oldP newP =>
    match findEntry b.entries name with
    | none => b
    | some r => mutateAt b name (r.edit_phone oldP newP)
  | .removePhone name phone =>
    match findEntry b.entries name with
    | none => b
    | some r => mutateAt b name (r.remove_phone phone)
  | .addBirthday name raw =>
    match findEntry b.entries name with
    | none => b
    | some r => mutateAt b name (r.add_birthday raw)

/-- Apply a sequence of operations from left to right. -/
def applyOps (b : AddressBook) : List BookOp → AddressBook
  | [] => b
  | op :: rest => applyOps (applyOp b op) rest

/-- Every stored key names its record: `kv.2.name == kv.1` for all entries. -/
def keyConsistent (b : AddressBook) : Bool :=
  b.entries.all fun kv => kv.2.name == kv.1

/-! ### Helper lemmas -/

theorem phoneFullmatch_iff (s : String) :
    phoneFullmatch s = true ↔
      (s.data.length = 10 ∧ ∀ c ∈ s.data, c.isDigit = true) := by
  simp [phoneFullmatch, List.all_eq_true]

theorem pySplitAux_ws (l : List Char) (h : ∀ c ∈ l, c.isWhitespace = true) :
    pySplitAux l [] = [] := by
  induction l with
  | nil => rfl
  | cons c rest ih =>
    simp only [pySplitAux, h c (List.mem_cons_self c rest), if_true, if_pos rfl]
    exact ih fun x hx => h x (List.mem_cons_of_mem c hx)

/-! ### Claims -/

/-- Claim C1: the claim says that with birthday 15.06.1990 the code
returns 5 at reference date 10.06.2024 and 360 at 20.06.2024, the
whole-day date difference.  The code compares the midnight composed
`datetime` against the wall clock and floors the `timedelta`, so at noon
on those dates it returns 4 and 359, at any instant strictly after
midnight on the birthday itself it rolls a year and returns 364, and it
produces the claimed 5 and 360 only at exactly 00:00:00. -/
theorem c1_days_to_birthday :
    (Record.mk "Bob" [] (some ⟨⟨1990, 6, 15⟩⟩)).days_to_birthday
      ⟨⟨2024, 6, 10⟩, 43200000000⟩ = .ok (some 4) ∧
    (Record.mk "Bob" [] (some ⟨⟨1990, 6, 15⟩⟩)).days_to_birthday
      ⟨⟨2024, 6, 20⟩, 43200000000⟩ = .ok (some 359) ∧
    (Record.mk "Bob" [] (some ⟨⟨1990, 6, 15⟩⟩)).days_to_birthday
      ⟨⟨2024, 6, 15⟩, 1⟩ = .ok (some 364) ∧
    (Record.mk "Bob" [] (some ⟨⟨1990, 6, 15⟩⟩)).days_to_birthday
      ⟨⟨2024, 6, 10⟩, 0⟩ = .ok (some 5) ∧
    (Record.mk "Bob" [] (some ⟨⟨1990, 6, 15⟩⟩)).days_to_birthday
      ⟨⟨2024, 6, 20⟩, 0⟩ = .ok (some 360) := by
  exact ⟨rfl, rfl, rfl, rfl, rfl⟩

/-- Claim C8: composing a Feb-29 birthday into the non-leap year of the
reference date makes `datetime.replace` raise, so `days_to_birthday`
fails instead of returning an integer. -/
theorem c8_feb29_raises :
    (Record.mk "Carl" [] (some ⟨⟨2020, 2, 29⟩⟩)).days_to_birthday
      ⟨⟨2025, 1, 1⟩, 43200000000⟩ =
      .error "day is out of range for month" := rfl

/-- Claim C6: from the empty book, `add Alice 0123456789` creates the
contact, `add Alice 9999999999` appends to the existing record so Alice
holds exactly those two phones in order, and `phone Alice` renders them
joined by `", "`. -/
theorem c6_add_scenario :
    replStep ⟨⟨2024, 1, 1⟩, 0⟩ AddressBook.empty "add Alice 0123456789" =
      .next ⟨[("Alice", ⟨"Alice", [⟨"0123456789"⟩], none⟩)]⟩
        ["Created new contact Alice with phone 0123456789."] ∧
    replStep ⟨⟨2024, 1, 1⟩, 0⟩ ⟨[("Alice", ⟨"Alice", [⟨"0123456789"⟩], none⟩)]⟩
        "add Alice 9999999999" =
      .next ⟨[("Alice", ⟨"Alice", [⟨"0123456789"⟩, ⟨"9999999999"⟩], none⟩)]⟩
        ["Added phone 9999999999 to existing contact Alice."] ∧
    (findEntry [("Alice", ⟨"Alice", [⟨"0123456789"⟩, ⟨"9999999999"⟩], none⟩)]
        "Alice").map (fun r => r.phones.map Phone.value) =
      some ["0123456789", "9999999999"] ∧
    replStep ⟨⟨2024, 1, 1⟩, 0⟩
        ⟨[("Alice", ⟨"Alice", [⟨"0123456789"⟩, ⟨"9999999999"⟩], none⟩)]⟩
        "phone Alice" =
      .next ⟨[("Alice", ⟨"Alice", [⟨"0123456789"⟩, ⟨"9999999999"⟩], none⟩)]⟩
        ["Alice\x27s phone numbers: 0123456789, 9999999999."] := by
  exact ⟨by decide, by decide, by decide, by decide⟩

/-- Claim C2: a string of exactly ten decimal digits constructs a `Phone`
rendering the identical string; any other string makes construction fail
with the validation error. -/
theorem c2_phone_validation (s : String) :
    ((s.data.length = 10 ∧ ∀ c ∈ s.data, c.isDigit = true) →
      Phone.init s = .ok ⟨s⟩ ∧ Phone.render ⟨s⟩ = s) ∧
    (¬(s.data.length = 10 ∧ ∀ c ∈ s.data, c.isDigit = true) →
      Phone.init s = .error "Phone number must be exactly 10 digits.") := by
  constructor
  · intro h
    have hm : phoneFullmatch s = true := (phoneFullmatch_iff s).mpr h
    exact ⟨by simp [Phone.init, set_phone, hm, Except.map], rfl⟩
  · intro h
    have hm : phoneFullmatch s = false := by
      cases hb : phoneFullmatch s with
      | false => rfl
      | true => exact absurd ((phoneFullmatch_iff s).mp hb) h
    simp [Phone.init, set_phone, hm, Except.map]

/-- Witness for C2 at the ten-digit string `"0123456789"` and the
malformed string `"123"`. -/
theorem c2_phone_validation_w :
    (Phone.init "0123456789" = .ok ⟨"0123456789"⟩ ∧
      Phone.render ⟨"0123456789"⟩ = "0123456789") ∧
    Phone.init "123" = .error "Phone number must be exactly 10 digits." :=
  ⟨(c2_phone_validation "0123456789").1 (by decide),
   (c2_phone_validation "123").2 (by decide)⟩

/-- Claim C10: on an empty or whitespace-only input line `parse_input`
fails (indexing the empty token list), so the loop iteration crashes
rather than printing `"Invalid command."` and continuing. -/
theorem c10_blank_input (s : String) (h : ∀ c ∈ s.data, c.isWhitespace = true) :
    parse_input s = none ∧
    ∀ today b, replStep today b s = .crash ∧
      replStep today b s ≠ .next b ["Invalid command."] := by
  have hsplit : pySplit s = [] := by
    simp [pySplit, pySplitAux_ws s.data h]
  have hp : parse_input s = none := by
    simp [parse_input, hsplit]
  refine ⟨hp, fun today b => ?_⟩
  simp [replStep, hp]

/-- Witness for C10 at the empty line and a spaces-only line. -/
theorem c10_blank_input_w :
    parse_input "" = none ∧
    replStep ⟨⟨2024, 1, 1⟩, 0⟩ AddressBook.empty "  " = .crash :=
  ⟨(c10_blank_input "" (by decide)).1,
   ((c10_blank_input "  " (by decide)).2 ⟨⟨2024, 1, 1⟩, 0⟩ AddressBook.empty).1⟩

theorem editFirstPhone_not_found (l : List Phone) (old new : String)
    (h : ∀ p ∈ l, p.value ≠ old) :
    editFirstPhone l old new = .error "Old phone number not found." := by
  induction l with
  | nil => rfl
  | cons p rest ih =>
    have hp : p.value ≠ old := h p (List.mem_cons_self p rest)
    simp only [editFirstPhone, if_neg hp,
      ih fun q hq => h q (List.mem_cons_of_mem p hq)]

theorem editFirstPhone_bad_new (l : List Phone) (old new : String)
    (hm : ∃ p ∈ l, p.value = old) (hn : phoneFullmatch new = false) :
    editFirstPhone l old new = .error "Phone number must be exactly 10 digits." := by
  induction l with
  | nil => simp at hm
  | cons p rest ih =>
    by_cases hp : p.value = old
    · simp only [editFirstPhone, if_pos hp, set_phone, hn, Bool.false_eq_true,
        if_false]
    · rcases hm with ⟨q, hq, hqv⟩
      rcases List.mem_cons.mp hq with rfl | hq2
      · exact absurd hqv hp
      · simp only [editFirstPhone, if_neg hp, ih ⟨q, hq2, hqv⟩]

/-- Claim C4: `edit_phone` replaces the first phone equal to the old value
(`["1111111111"]` becomes `["2222222222"]`); with no matching phone it
fails with the not-found error, and with a matched phone but a malformed
new value it fails with the validation error — in both failure cases the
record is not modified (the operation returns no record). -/
theorem c4_edit_phone (r : Record) (old new : String) :
    ((∀ p ∈ r.phones, p.value ≠ old) →
      r.edit_phone old new = .error "Old phone number not found.") ∧
    ((∃ p ∈ r.phones, p.value = old) → phoneFullmatch new = false →
      r.edit_phone old new = .error "Phone number must be exactly 10 digits.") ∧
    (Record.mk "A" [⟨"1111111111"⟩] none).edit_phone "1111111111" "2222222222" =
      .ok ⟨"A", [⟨"2222222222"⟩], none⟩ := by
  refine ⟨fun h => ?_, fun hm hn => ?_, rfl⟩
  · simp only [Record.edit_phone, editFirstPhone_not_found r.phones old new h]
  · simp only [Record.edit_phone, editFirstPhone_bad_new r.phones old new hm hn]

/-- Witness for C4: the not-found and validation failures at concrete
records. -/
theorem c4_edit_phone_w :
    (Record.mk "A" [⟨"1111111111"⟩] none).edit_phone "3333333333" "2222222222" =
      .error "Old phone number not found." ∧
    (Record.mk "A" [⟨"1111111111"⟩] none).edit_phone "1111111111" "12" =
      .error "Phone number must be exactly 10 digits." :=
  ⟨(c4_edit_phone (Record.mk "A" [⟨"1111111111"⟩] none) "3333333333"
      "2222222222").1 (by decide),
   (c4_edit_phone (Record.mk "A" [⟨"1111111111"⟩] none) "1111111111"
      "12").2.1 (by decide) (by decide)⟩

theorem findEntry_not_mem (l : List (String × Record)) (n : String)
    (h : n ∉ l.map Prod.fst) : findEntry l n = none := by
  induction l with
  | nil => rfl
  | cons kv rest ih =>
    simp only [List.map_cons, List.mem_cons] at h
    push_neg at h
    have hk : ¬kv.1 = n := fun he => h.1 he.symm
    simp only [findEntry, if_neg hk]
    exact ih h.2

theorem removeKey_length (l : List (String × Record)) (n : String)
    (h : (findEntry l n).isSome) : (removeKey l n).length + 1 = l.length := by
  induction l with
  | nil => simp [findEntry] at h
  | cons kv rest ih =>
    by_cases hk : kv.1 = n
    · simp [removeKey, hk]
    · simp only [findEntry, if_neg hk] at h
      simp [removeKey, hk, ← ih h]

theorem findEntry_removeKey_ne (l : List (String × Record)) (k n : String)
    (hk : k ≠ n) : findEntry (removeKey l n) k = findEntry l k := by
  induction l with
  | nil => rfl
  | cons kv rest ih =>
    by_cases hn : kv.1 = n
    · have hke : ¬kv.1 = k := fun he => hk (he ▸ hn)
      simp only [removeKey, if_pos hn, findEntry, if_neg hke]
    · by_cases hke : kv.1 = k
      · simp only [removeKey, if_neg hn, findEntry, if_pos hke]
      · simp only [removeKey, if_neg hn, findEntry, if_neg hke]
        exact ih

theorem findEntry_removeKey_self (l : List (String × Record)) (n : String)
    (hnd : (l.map Prod.fst).Nodup) : findEntry (removeKey l n) n = none := by
  induction l with
  | nil => rfl
  | cons kv rest ih =>
    simp only [List.map_cons, List.nodup_cons] at hnd
    by_cases hn : kv.1 = n
    · simpa only [removeKey, if_pos hn] using
        findEntry_not_mem rest n (hn ▸ hnd.1)
    · simp only [removeKey, if_neg hn, findEntry, if_neg hn]
      exact ih hnd.2

/-- Claim C7: `delete` on an absent name fails with the not-found error
and produces no modified book; on a present name it removes exactly that
entry (size drops by one, other names read unchanged, and — keys of a
`dict` being unique — the name is gone). -/
theorem c7_delete (b : AddressBook) (n : String) :
    (b.find n = none → b.delete n = .error "Record not found.") ∧
    (∀ r, b.find n = some r →
      ∃ b2, b.delete n = .ok b2 ∧
        b2.entries.length + 1 = b.entries.length ∧
        (∀ k, k ≠ n → b2.find k = b.find k) ∧
        ((b.entries.map Prod.fst).Nodup → b2.find n = none)) := by
  constructor
  · intro h
    simp [AddressBook.delete, AddressBook.find] at *
    simp [h]
  · intro r hr
    have hs : (findEntry b.entries n).isSome := by
      simp only [AddressBook.find] at hr
      simp [hr]
    refine ⟨⟨removeKey b.entries n⟩, ?_, ?_, ?_, ?_⟩
    · simp [AddressBook.delete, hs]
    · exact removeKey_length b.entries n hs
    · intro k hk
      exact findEntry_removeKey_ne b.entries k n hk
    · intro hnd
      exact findEntry_removeKey_self b.entries n hnd

/-- Witness for C7 on the one-record book `{"Alice"}`: deleting `"Bob"`
fails, deleting `"Alice"` empties the book. -/
theorem c7_delete_w :
    (AddressBook.mk [("Alice", Record.init "Alice")]).delete "Bob" =
      .error "Record not found." ∧
    ∃ b2, (AddressBook.mk [("Alice", Record.init "Alice")]).delete "Alice" =
      .ok b2 ∧ b2.entries.length + 1 = 1 ∧
      (∀ k, k ≠ "Alice" →
        b2.find k = (AddressBook.mk [("Alice", Record.init "Alice")]).find k) ∧
      (([("Alice", Record.init "Alice")].map
          (Prod.fst (α := String) (β := Record))).Nodup → b2.find "Alice" = none) :=
  ⟨(c7_delete (AddressBook.mk [("Alice", Record.init "Alice")]) "Bob").1 rfl,
   (c7_delete (AddressBook.mk [("Alice", Record.init "Alice")]) "Alice").2
     (Record.init "Alice") rfl⟩

theorem add_phone_name {r r2 : Record} {p : String}
    (h : r.add_phone p = .ok r2) : r2.name = r.name := by
  unfold Record.add_phone at h
  cases hp : Phone.init p with
  | ok q => rw [hp] at h; cases h; rfl
  | error e => rw [hp] at h; cases h

theorem remove_phone_name {r r2 : Record} {p : String}
    (h : r.remove_phone p = .ok r2) : r2.name = r.name := by
  unfold Record.remove_phone at h
  cases hp : removeFirstPhone r.phones p with
  | ok l => rw [hp] at h; cases h; rfl
  | error e => rw [hp] at h; cases h

theorem edit_phone_name {r r2 : Record} {po pn : String}
    (h : r.edit_phone po pn = .ok r2) : r2.name = r.name := by
  unfold Record.edit_phone at h
  cases hp : editFirstPhone r.phones po pn with
  | ok l => rw [hp] at h; cases h; rfl
  | error e => rw [hp] at h; cases h

theorem add_birthday_name {r r2 : Record} {raw : String}
    (h : r.add_birthday raw = .ok r2) : r2.name = r.name := by
  unfold Record.add_birthday at h
  cases hp : Birthday.init raw with
  | ok bd => rw [hp] at h; cases h; rfl
  | error e => rw [hp] at h; cases h

theorem findEntry_mem {l : List (String × Record)} {n : String} {r : Record}
    (h : findEntry l n = some r) : (n, r) ∈ l := by
  induction l with
  | nil => simp [findEntry] at h
  | cons kv rest ih =>
    by_cases hk : kv.1 = n
    · simp only [findEntry, if_pos hk] at h
      cases h
      have he : (n, kv.2) = kv := by
        cases kv
        simp only at hk ⊢
        rw [hk]
      rw [he]
      exact List.mem_cons_self kv rest
    · simp only [findEntry, if_neg hk] at h
      exact List.mem_cons_of_mem kv (ih h)

theorem keyConsistent_updateAt {b : AddressBook} {n : String} {r2 : Record}
    (hb : keyConsistent b = true) (hn : r2.name = n) :
    keyConsistent (updateAt b n r2) = true := by
  simp only [keyConsistent, updateAt, List.all_eq_true, List.mem_map] at *
  rintro kv ⟨kv0, hkv0, rfl⟩
  by_cases hk : kv0.1 = n
  · simp [hk, hn]
  · simpa [hk] using hb kv0 hkv0

theorem keyConsistent_applyOp (b : AddressBook) (op : BookOp)
    (hb : keyConsistent b = true) : keyConsistent (applyOp b op) = true := by
  have hfind : ∀ {n r}, findEntry b.entries n = some r → r.name = n := by
    intro n r hf
    have hmem := findEntry_mem hf
    simp only [keyConsistent, List.all_eq_true] at hb
    simpa using hb (n, r) hmem
  cases op with
  | addRecord r =>
    simp only [applyOp, AddressBook.add_record, dictSet]
    by_cases hs : (findEntry b.entries r.name).isSome
    · simp only [if_pos hs, keyConsistent, List.all_eq_true, List.mem_map]
      rintro kv ⟨kv0, hkv0, rfl⟩
      by_cases hk : kv0.1 = r.name
      · simp [hk]
      · simp only [keyConsistent, List.all_eq_true] at hb
        simpa [hk] using hb kv0 hkv0
    · simp only [if_neg hs, keyConsistent, List.all_eq_true]
      intro kv hkv
      rcases List.mem_append.mp hkv with h1 | h1
      · simp only [keyConsistent, List.all_eq_true] at hb
        exact hb kv h1
      · rcases List.mem_singleton.mp h1 with rfl
        simp
  | delete n =>
    simp only [applyOp]
    cases hd : b.delete n with
    | error e => exact hb
    | ok b2 =>
      unfold AddressBook.delete at hd
      by_cases hs : (findEntry b.entries n).isSome
      · simp only [if_pos hs] at hd
        cases hd
        simp only [keyConsistent, List.all_eq_true] at *
        intro kv hkv
        have hsub : ∀ l : List (String × Record), kv ∈ removeKey l n → kv ∈ l := by
          intro l
          induction l with
          | nil => simp [removeKey]
          | cons kv0 rest ih =>
            by_cases hk : kv0.1 = n
            · simp only [removeKey, if_pos hk]
              exact fun hm => List.mem_cons_of_mem kv0 hm
            · simp only [removeKey, if_neg hk, List.mem_cons]
              rintro (rfl | hm)
              · exact Or.inl rfl
              · exact Or.inr (ih hm)
        exact hb kv (hsub b.entries hkv)
      · simp [if_neg hs] at hd
  | addPhone n p =>
    simp only [applyOp]
    cases hf : findEntry b.entries n with
    | none => exact hb
    | some r =>
      cases ha : r.add_phone p with
      | error e => simpa only [mutateAt, ha] using hb
      | ok r2 =>
        simpa only [mutateAt, ha] using
          keyConsistent_updateAt hb ((add_phone_name ha).trans (hfind hf))
  | editPhone n po pn =>
    simp only [applyOp]
    cases hf : findEntry b.entries n with
    | none => exact hb
    | some r =>
      cases ha : r.edit_phone po pn with
      | error e => simpa only [mutateAt, ha] using hb
      | ok r2 =>
        simpa only [mutateAt, ha] using
          keyConsistent_updateAt hb ((edit_phone_name ha).trans (hfind hf))
  | removePhone n p =>
    simp only [applyOp]
    cases hf : findEntry b.entries n with
    | none => exact hb
    | some r =>
      cases ha : r.remove_phone p with
      | error e => simpa only [mutateAt, ha] using hb
      | ok r2 =>
        simpa only [mutateAt, ha] using
          keyConsistent_updateAt hb ((remove_phone_name ha).trans (hfind hf))
  | addBirthday n raw =>
    simp only [applyOp]
    cases hf : findEntry b.entries n with
    | none => exact hb
    | some r =>
      cases ha : r.add_birthday raw with
      | error e => simpa only [mutateAt, ha] using hb
      | ok r2 =>
        simpa only [mutateAt, ha] using
          keyConsistent_updateAt hb ((add_birthday_name ha).trans (hfind hf))

/-- Claim C9: starting from the empty book, any sequence of `add_record`,
`delete` and per-record phone/birthday mutations leaves every key mapped
to a record whose (immutable) name equals that key. -/
theorem c9_key_name_invariant (ops : List BookOp) :
    keyConsistent (applyOps AddressBook.empty ops) = true := by
  suffices h : ∀ b, keyConsistent b = true →
      ∀ ops : List BookOp, keyConsistent (applyOps b ops) = true by
    exact h AddressBook.empty rfl ops
  intro b hb ops2
  induction ops2 generalizing b with
  | nil => exact hb
  | cons op rest ih => exact ih (applyOp b op) (keyConsistent_applyOp b op hb)

theorem collectUpcoming_mem (today : DateTime) (entries : List (String × Record))
    (l : List (String × String)) (h : collectUpcoming today entries = .ok l)
    (n s : String) :
    (n, s) ∈ l ↔
      ∃ r, (n, r) ∈ entries ∧ ∃ bd, r.birthday = some bd ∧
        (∃ d, r.days_to_birthday today = .ok (some d) ∧ d ≤ 7) ∧
        s = renderDate bd.value := by
  induction entries generalizing l with
  | nil =>
    simp only [collectUpcoming] at h
    cases h
    simp
  | cons kv rest ih =>
    obtain ⟨n0, r0⟩ := kv
    simp only [collectUpcoming] at h
    cases hbd : r0.birthday with
    | none =>
      rw [hbd] at h
      rw [ih l h]
      constructor
      · rintro ⟨r, hr, rest_cond⟩
        exact ⟨r, List.mem_cons_of_mem _ hr, rest_cond⟩
      · rintro ⟨r, hr, bd, hrbd, hd, hs⟩
        rcases List.mem_cons.mp hr with he | hr2
        · cases he
          rw [hbd] at hrbd
          cases hrbd
        · exact ⟨r, hr2, bd, hrbd, hd, hs⟩
    | some bd0 =>
      rw [hbd] at h
      cases hdays : r0.days_to_birthday today with
      | error e => rw [hdays] at h; cases h
      | ok od =>
        rw [hdays] at h
        cases od with
        | none =>
          rw [ih l h]
          constructor
          · rintro ⟨r, hr, rest_cond⟩
            exact ⟨r, List.mem_cons_of_mem _ hr, rest_cond⟩
          · rintro ⟨r, hr, bd, hrbd, ⟨d, hdd, hd7⟩, hs⟩
            rcases List.mem_cons.mp hr with he | hr2
            · cases he
              rw [hdays] at hdd
              cases hdd
            · exact ⟨r, hr2, bd, hrbd, ⟨d, hdd, hd7⟩, hs⟩
        | some d0 =>
          have h2 : (if d0 ≤ 7 then
              (match collectUpcoming today rest with
               | .error e => Except.error e
               | .ok l2 => Except.ok ((n0, renderDate bd0.value) :: l2))
              else collectUpcoming today rest) = .ok l := h
          by_cases hle : d0 ≤ 7
          · rw [if_pos hle] at h2
            cases hrest : collectUpcoming today rest with
            | error e => rw [hrest] at h2; cases h2
            | ok l2 =>
              rw [hrest] at h2
              cases h2
              rw [List.mem_cons, ih l2 hrest]
              constructor
              · rintro (he | ⟨r, hr, rest_cond⟩)
                · cases he
                  exact ⟨r0, List.mem_cons_self _ _, bd0, hbd,
                    ⟨d0, hdays, hle⟩, rfl⟩
                · exact ⟨r, List.mem_cons_of_mem _ hr, rest_cond⟩
              · rintro ⟨r, hr, bd, hrbd, ⟨d, hdd, hd7⟩, hs⟩
                rcases List.mem_cons.mp hr with he | hr2
                · cases he
                  rw [hbd] at hrbd
                  cases hrbd
                  rw [hs]
                  exact Or.inl rfl
                · exact Or.inr ⟨r, hr2, bd, hrbd, ⟨d, hdd, hd7⟩, hs⟩
          · rw [if_neg hle] at h2
            rw [ih l h2]
            constructor
            · rintro ⟨r, hr, rest_cond⟩
              exact ⟨r, List.mem_cons_of_mem _ hr, rest_cond⟩
            · rintro ⟨r, hr, bd, hrbd, ⟨d, hdd, hd7⟩, hs⟩
              rcases List.mem_cons.mp hr with he | hr2
              · cases he
                rw [hdays] at hdd
                cases hdd
                exact absurd hd7 hle
              · exact ⟨r, hr2, bd, hrbd, ⟨d, hdd, hd7⟩, hs⟩

/-- Claim C3: when `get_upcoming_birthdays` succeeds, its output contains
a name/rendered-birthday pair exactly for the records whose
`days_to_birthday` is non-null and at most 7. -/
theorem c3_upcoming (b : AddressBook) (today : DateTime)
    (l : List (String × String)) (h : b.get_upcoming_birthdays today = .ok l)
    (n s : String) :
    (n, s) ∈ l ↔
      ∃ r, (n, r) ∈ b.entries ∧ ∃ bd, r.birthday = some bd ∧
        (∃ d, r.days_to_birthday today = .ok (some d) ∧ d ≤ 7) ∧
        s = renderDate bd.value :=
  collectUpcoming_mem today b.entries l h n s

/-- Witness for C3: from reference date 10.06.2024, Alice (birthday
17.06.1990, 7 days away) is listed and Dave (18.06.1990, 8 days away) is
not. -/
theorem c3_upcoming_w :
    ("Alice", "17.06.1990") ∈ [("Alice", "17.06.1990")] ∧
    ("Dave", "18.06.1990") ∉ [("Alice", "17.06.1990")] :=
  ⟨(c3_upcoming
      ⟨[("Alice", ⟨"Alice", [], some ⟨⟨1990, 6, 17⟩⟩⟩),
        ("Dave", ⟨"Dave", [], some ⟨⟨1990, 6, 18⟩⟩⟩)]⟩
      ⟨⟨2024, 6, 10⟩, 0⟩ [("Alice", "17.06.1990")] rfl "Alice" "17.06.1990").mpr
    ⟨⟨"Alice", [], some ⟨⟨1990, 6, 17⟩⟩⟩, by simp, ⟨⟨1990, 6, 17⟩⟩, rfl,
      ⟨7, rfl, by decide⟩, by decide⟩,
   by decide⟩

theorem daysInMonth_le_31 (y m : Nat) : daysInMonth y m ≤ 31 := by
  unfold daysInMonth
  split
  · split <;> omega
  all_goals omega

theorem digitChar_ne_dot : ∀ k : Nat, k < 10 → Nat.digitChar k ≠ '.' := by
  decide

theorem dot_not_mem_pad2 (n : Nat) (h : n < 100) : '.' ∉ pad2 n := by
  intro hmem
  simp only [pad2, List.mem_cons, List.not_mem_nil, or_false] at hmem
  rcases hmem with h1 | h1
  · exact digitChar_ne_dot (n / 10) (by omega) h1.symm
  · exact digitChar_ne_dot (n % 10) (by omega) h1.symm

theorem dot_not_mem_pad4 (n : Nat) (h : n < 10000) : '.' ∉ pad4 n := by
  intro hmem
  simp only [pad4, List.mem_cons, List.not_mem_nil, or_false] at hmem
  rcases hmem with h1 | h1 | h1 | h1
  · exact digitChar_ne_dot (n / 1000) (by omega) h1.symm
  · exact digitChar_ne_dot (n / 100 % 10) (by omega) h1.symm
  · exact digitChar_ne_dot (n / 10 % 10) (by omega) h1.symm
  · exact digitChar_ne_dot (n % 10) (by omega) h1.symm

theorem splitDots_no_dot (l : List Char) (h : '.' ∉ l) : splitDots l = [l] := by
  induction l with
  | nil => rfl
  | cons c rest ih =>
    simp only [List.mem_cons] at h
    push_neg at h
    have hc : ¬c = '.' := fun he => h.1 he.symm
    simp only [splitDots, if_neg hc, ih h.2]

theorem splitDots_append (a r : List Char) (h : '.' ∉ a) :
    splitDots (a ++ '.' :: r) = a :: splitDots r := by
  induction a with
  | nil => simp [splitDots]
  | cons c rest ih =>
    simp only [List.mem_cons] at h
    push_neg at h
    have hc : ¬c = '.' := fun he => h.1 he.symm
    rw [List.cons_append, splitDots, if_neg hc, ih h.2]

theorem digitChar_val : ∀ k : Nat, k < 10 → (Nat.digitChar k).toNat - 48 = k := by
  decide

theorem digitChar_isDigit : ∀ k : Nat, k < 10 → (Nat.digitChar k).isDigit = true := by
  decide

theorem digitsToNat_pad2 (n : Nat) (h : n < 100) : digitsToNat (pad2 n) = n := by
  simp only [pad2, digitsToNat, List.foldl]
  rw [digitChar_val (n / 10) (by omega), digitChar_val (n % 10) (by omega)]
  omega

theorem pad2_all_digits (n : Nat) (h : n < 100) :
    (pad2 n).all Char.isDigit = true := by
  simp only [pad2, List.all_cons, List.all_nil]
  rw [digitChar_isDigit (n / 10) (by omega), digitChar_isDigit (n % 10) (by omega)]
  rfl

theorem parseDay_pad2 (d : Nat) (h31 : d ≤ 31) (h1 : 1 ≤ d) :
    parseDayField (pad2 d) = some d := by
  have hv : digitsToNat (pad2 d) = d := digitsToNat_pad2 d (by omega)
  unfold parseDayField
  rw [hv, if_pos ⟨Or.inr rfl, pad2_all_digits d (by omega), h1, h31⟩]

theorem parseMonth_pad2 (m : Nat) (h12 : m ≤ 12) (h1 : 1 ≤ m) :
    parseMonthField (pad2 m) = some m := by
  have hv : digitsToNat (pad2 m) = m := digitsToNat_pad2 m (by omega)
  unfold parseMonthField
  rw [hv, if_pos ⟨Or.inr rfl, pad2_all_digits m (by omega), h1, h12⟩]

theorem parseYear_pad4 (y : Nat) (h : y < 10000) :
    parseYearField (pad4 y) = some y := by
  have hv : digitsToNat (pad4 y) = y := by
    simp only [pad4, digitsToNat, List.foldl]
    rw [digitChar_val (y / 1000) (by omega),
        digitChar_val (y / 100 % 10) (by omega),
        digitChar_val (y / 10 % 10) (by omega),
        digitChar_val (y % 10) (by omega)]
    omega
  have hdig : (pad4 y).all Char.isDigit = true := by
    simp only [pad4, List.all_cons, List.all_nil]
    rw [digitChar_isDigit (y / 1000) (by omega),
        digitChar_isDigit (y / 100 % 10) (by omega),
        digitChar_isDigit (y / 10 % 10) (by omega),
        digitChar_isDigit (y % 10) (by omega)]
    rfl
  unfold parseYearField
  rw [hv, if_pos ⟨rfl, hdig⟩]

theorem strptime_render (dt : Date) (h : validDate dt) :
    strptimeDMY (renderDate dt) = some dt := by
  obtain ⟨hy1, hy2, hm1, hm2, hd1, hd2⟩ := h
  have hd31 : dt.day ≤ 31 := hd2.trans (daysInMonth_le_31 dt.year dt.month)
  have hsplit : splitDots (renderDate dt).data =
      [pad2 dt.day, pad2 dt.month, pad4 dt.year] := by
    show splitDots (pad2 dt.day ++ '.' :: (pad2 dt.month ++ '.' :: pad4 dt.year)) = _
    rw [splitDots_append _ _ (dot_not_mem_pad2 dt.day (by omega)),
        splitDots_append _ _ (dot_not_mem_pad2 dt.month (by omega)),
        splitDots_no_dot _ (dot_not_mem_pad4 dt.year (by omega))]
  have hif : 1 ≤ dt.year ∧ dt.day ≤ daysInMonth dt.year dt.month := ⟨hy1, hd2⟩
  simp only [strptimeDMY, hsplit, parseDay_pad2 dt.day hd31 hd1,
    parseMonth_pad2 dt.month hm2 hm1,
    parseYear_pad4 dt.year (by omega), if_pos hif]

/-- Claim C5: a string in strict `DD.MM.YYYY` form denoting a real
calendar date round-trips through `Birthday` (render after construct gives
the same string), and a string `strptime` cannot parse in that format
makes construction fail with the validation error. -/
theorem c5_birthday_roundtrip (s : String) :
    ((∃ dt : Date, validDate dt ∧ s = renderDate dt) →
      ∃ b, Birthday.init s = .ok b ∧ b.render = s) ∧
    (strptimeDMY s = none →
      Birthday.init s = .error "Invalid date format. Use DD.MM.YYYY") := by
  constructor
  · rintro ⟨dt, hv, rfl⟩
    exact ⟨⟨dt⟩, by simp [Birthday.init, strptime_render dt hv], rfl⟩
  · intro h
    simp [Birthday.init, h]

/-- Witness for C5 at `"15.06.1990"` (round-trips) and `"31.02.2020"`
(impossible calendar date, rejected). -/
theorem c5_birthday_roundtrip_w :
    (∃ b, Birthday.init "15.06.1990" = .ok b ∧ b.render = "15.06.1990") ∧
    Birthday.init "31.02.2020" = .error "Invalid date format. Use DD.MM.YYYY" :=
  ⟨(c5_birthday_roundtrip "15.06.1990").1 ⟨⟨1990, 6, 15⟩, by decide, by decide⟩,
   (c5_birthday_roundtrip "31.02.2020").2 (by decide)⟩

end Hw7
